import Mathlib

/-!
# Modal (src/component/Modal.jsx)

A shallow embedding of the `Modal` React component: the props it receives, the
element tree its JSX evaluates to, its `handleKeyDown` closure, the one-shot
`useEffect` that focuses `modalRef.current`, and the `Modal.propTypes` table.

Caller-supplied functions are opaque values; a call is recorded as the callee
together with the argument list it was given.  Event delivery follows the
bubbling order of the host: the listeners registered for the event type on the
target and on each of its ancestors run from the target up to the root, each
receiving the event object as its single argument.
-/

namespace ModalPlugin

/-! ## Values -/

/-- A caller-supplied function value, identified by reference. -/
structure Callback where
  ref : Nat
deriving DecidableEq, Repr

/-- One entry of the `actions` array: `{ label, onClick }`. -/
structure Action where
  label : String
  onClick : Callback
deriving DecidableEq, Repr

/-- The props object destructured at `function Modal({ onClose, title, message, actions })`.
A prop that the caller did not pass is `undefined`, written `none`. -/
structure Props where
  onClose : Option Callback
  title : Option String
  message : Option String
  actions : Option (List Action)
deriving DecidableEq, Repr

/-- Props in the shape `Modal.propTypes` demands: `onClose` and `actions` are
present, `title` and `message` may be left out. -/
structure Descriptor where
  onClose : Callback
  title : Option String
  message : Option String
  actions : List Action
deriving DecidableEq, Repr

/-- The props object a well-shaped descriptor is passed as. -/
def Descriptor.toProps (d : Descriptor) : Props :=
  { onClose := some d.onClose, title := d.title, message := d.message,
    actions := some d.actions }

/-- Errors thrown by the JavaScript runtime. -/
inductive JSError where
  | typeError (msg : String)
deriving DecidableEq, Repr

/-- The event objects the component can be handed. -/
inductive UIEvent where
  | keydown (key : String)
  | click
deriving DecidableEq, Repr

/-- The value of `e.key`: the key name of a keyboard event, `undefined` otherwise. -/
def UIEvent.key : UIEvent → Option String
  | .keydown k => some k
  | .click => none

/-- One call of a caller-supplied function with the arguments it received. -/
structure Call where
  callee : Callback
  args : List UIEvent
deriving DecidableEq, Repr

/-! ## Listeners -/

/-- What a JSX event prop can hold in this component: a caller's function
value passed straight through (`onClick={onClose}`, `onClick={action.onClick}`),
or the `handleKeyDown` closure (`keyHandler`), which captures `onClose`. -/
inductive Listener where
  | fn (f : Callback)
  | keyHandler (onClose : Option Callback)
deriving DecidableEq, Repr

/-- Body of `handleKeyDown` (Modal.jsx:35-39):
`if (e.key === 'Escape') { onClose() }`. Calling `undefined` throws. -/
def handleKeyDown (onClose : Option Callback) (e : UIEvent) : Except JSError (List Call) :=
  if e.key = some "Escape" then
    match onClose with
    | some f => .ok [{ callee := f, args := [] }]
    | none => .error (.typeError "onClose is not a function")
  else
    .ok []

/-- Run one listener on an event object. A function value installed directly
as a listener is called with the event as its only argument. -/
def Listener.invoke : Listener → UIEvent → Except JSError (List Call)
  | .fn f, e => .ok [{ callee := f, args := [e] }]
  | .keyHandler onClose, e => handleKeyDown onClose e

/-! ## Element trees -/

/-- Props of a host element as written in the JSX: its string attributes
(`className`, `role`, `aria-*`, `id`, `tabIndex`, `icon`), the React `key`,
whether `ref={modalRef}` is attached, and the two listener props in use. -/
structure ElemProps where
  attrs : List (String × String)
  key : Option Nat
  ref : Bool
  onClick : Option Listener
  onKeyDown : Option Listener
deriving DecidableEq, Repr

/-- A React node: `undefined` (renders nothing), a string, or an element. -/
inductive ReactNode where
  | undefined
  | text (s : String)
  | element (tag : String) (props : ElemProps) (children : List ReactNode)
deriving Repr

/-- Element props carrying only string attributes. -/
def plain (attrs : List (String × String)) : ElemProps :=
  { attrs := attrs, key := none, ref := false, onClick := none, onKeyDown := none }

/-- JavaScript truthiness of an optional string: `undefined` and `""` are falsy. -/
def truthy : Option String → Bool
  | none => false
  | some s => s ≠ ""

/-- The JSX child `{x && (node)}`: `node` when `x` is truthy, else the falsy
value of `x` itself (`undefined` or the empty string). -/
def jsAnd (x : Option String) (node : ReactNode) : ReactNode :=
  if truthy x then node
  else match x with
    | none => .undefined
    | some s => .text s

/-- The arrow function given to `actions.map` (Modal.jsx:83-91): the button
rendered for the action at position `index`. -/
def actionButton (index : Nat) (action : Action) : ReactNode :=
  .element "button"
    { attrs := [("className", "modal__popup--buttons--btn")], key := some index,
      ref := false, onClick := some (.fn action.onClick), onKeyDown := none }
    [.text action.label]

/-- The close control (Modal.jsx:56-65): a button whose `onClick` prop is the
`onClose` prop itself, around the icon. -/
def closeButton (onClose : Option Callback) : ReactNode :=
  .element "button"
    { attrs := [("className", "modal__popup--close"), ("aria-label", "Close modal")],
      key := none, ref := false, onClick := onClose.map Listener.fn, onKeyDown := none }
    [ .element "FontAwesomeIcon"
        (plain [("icon", "faXmark"), ("className", "modal__popup--close--icon")]) [] ]

/-- The child `{title && (<h3 id="modal-title" ...>{title}</h3>)}` (Modal.jsx:68-72). -/
def titleSlot (title : Option String) : ReactNode :=
  jsAnd title
    (.element "h3" (plain [("id", "modal-title"), ("className", "modal__popup--title")])
      [.text (title.getD "")])

/-- The child `{message && (<p id="modal-message" ...>{message}</p>)}` (Modal.jsx:75-79). -/
def messageSlot (message : Option String) : ReactNode :=
  jsAnd message
    (.element "p" (plain [("id", "modal-message"), ("className", "modal__popup--message")])
      [.text (message.getD "")])

/-- The JSX of the `return` statement (Modal.jsx:41-95), with `buttons` the
value of `actions.map(...)`: the root `div`, the popup `div` inside it, and in
the popup the close control, the title and message children and the buttons `div`. -/
def dialog (onClose : Option Callback) (title message : Option String)
    (buttons : List ReactNode) : ReactNode :=
  .element "div"
    { attrs := [("className", "modal"), ("role", "dialog"), ("aria-modal", "true"),
                ("tabIndex", "-1")],
      key := none, ref := true, onClick := none,
      onKeyDown := some (.keyHandler onClose) }
    [ .element "div"
        (plain [("className", "modal__popup"), ("aria-labelledby", "modal-title"),
                ("aria-describedby", "modal-message")])
        [ closeButton onClose,
          titleSlot title,
          messageSlot message,
          .element "div" (plain [("className", "modal__popup--buttons")]) buttons ] ]

/-- The function component `Modal` (Modal.jsx:18-96): the element tree it
returns. `actions.map` is a property read on `actions` and throws when
`actions` is `undefined`. -/
def Modal (p : Props) : Except JSError ReactNode :=
  match p.actions with
  | none => .error (.typeError "Cannot read properties of undefined (reading 'map')")
  | some actions => .ok (dialog p.onClose p.title p.message (actions.mapIdx actionButton))

/-! ## Reading a tree -/

/-- Tag name of an element; `none` for strings and `undefined`. -/
def ReactNode.tag : ReactNode → Option String
  | .element t _ _ => some t
  | _ => none

/-- Value of a string attribute of an element. -/
def ReactNode.attr (name : String) : ReactNode → Option String
  | .element _ props _ => props.attrs.lookup name
  | _ => none

/-- Children of an element; strings and `undefined` have none. -/
def ReactNode.children : ReactNode → List ReactNode
  | .element _ _ cs => cs
  | _ => []

/-- The nodes met when walking from a node down a path of child indices, the
start node first and the addressed node last; `none` when the path leaves the tree. -/
def ReactNode.chain : ReactNode → List Nat → Option (List ReactNode)
  | n, [] => some [n]
  | n, i :: rest =>
    match n.children[i]? with
    | none => none
    | some c => (c.chain rest).map (n :: ·)

/-- The node a path of child indices addresses. -/
def ReactNode.nodeAt (n : ReactNode) (path : List Nat) : Option ReactNode :=
  (n.chain path).bind List.getLast?

mutual
/-- All elements of a tree in document order, the node itself included. -/
def ReactNode.elements : ReactNode → List ReactNode
  | .undefined => []
  | .text _ => []
  | .element t props cs => .element t props cs :: elementsOfList cs
/-- Elements of a list of sibling trees, in document order. -/
def elementsOfList : List ReactNode → List ReactNode
  | [] => []
  | c :: cs => c.elements ++ elementsOfList cs
end

mutual
/-- Text content of a node: the concatenation of the strings below it. -/
def ReactNode.textContent : ReactNode → String
  | .undefined => ""
  | .text s => s
  | .element _ _ cs => textOfList cs
/-- Concatenated text content of a list of sibling trees. -/
def textOfList : List ReactNode → String
  | [] => ""
  | c :: cs => c.textContent ++ textOfList cs
end

/-- Elements of a tree with a given tag name, in document order. -/
def ReactNode.byTag (n : ReactNode) (tag : String) : List ReactNode :=
  n.elements.filter fun e => e.tag = some tag

/-- Every value of an `id` attribute in the tree. -/
def ReactNode.ids (n : ReactNode) : List String :=
  n.elements.filterMap (ReactNode.attr "id")

/-- Every element id that an `aria-labelledby` or `aria-describedby` attribute
in the tree refers to. -/
def ReactNode.ariaRefs (n : ReactNode) : List String :=
  n.elements.filterMap (ReactNode.attr "aria-labelledby") ++
    n.elements.filterMap (ReactNode.attr "aria-describedby")

/-! ## Event delivery -/

/-- The listener an element registers for the type of a given event. -/
def ReactNode.listener (e : UIEvent) : ReactNode → Option Listener
  | .element _ props _ =>
    match e with
    | .keydown _ => props.onKeyDown
    | .click => props.onClick
  | _ => none

/-- Run listeners in order, collecting the calls they make; a throw stops the run. -/
def runListeners : List Listener → UIEvent → Except JSError (List Call)
  | [], _ => .ok []
  | l :: ls, e => do
    let first ← l.invoke e
    let later ← runListeners ls e
    pure (first ++ later)

/-- Deliver an event to the node addressed by `target`: the listeners for the
event type found on the target and its ancestors run from the target up to the
root. A path that addresses no node delivers nothing. -/
def dispatch (tree : ReactNode) (target : List Nat) (e : UIEvent) : Except JSError (List Call) :=
  match tree.chain target with
  | none => .ok []
  | some nodes => runListeners (nodes.reverse.filterMap (ReactNode.listener e)) e

/-! ## Mount effect -/

mutual
/-- Path of the element `modalRef.current` points at after commit: the first
element carrying `ref={modalRef}`; `none` while the ref is still `null`. -/
def findRef : ReactNode → Option (List Nat)
  | .undefined => none
  | .text _ => none
  | .element _ props cs => if props.ref then some [] else findRefIn cs 0
/-- Search the siblings from child index `i` on. -/
def findRefIn : List ReactNode → Nat → Option (List Nat)
  | [], _ => none
  | c :: cs, i =>
    match findRef c with
    | some path => some (i :: path)
    | none => findRefIn cs (i + 1)
end

/-- The effect body `modalRef.current.focus()` (Modal.jsx:26): path of the
element that receives focus, or the throw of reading `focus` on `null`. -/
def focusEffect (tree : ReactNode) : Except JSError (List Nat) :=
  match findRef tree with
  | some path => .ok path
  | none => .error (.typeError "Cannot read properties of null (reading 'focus')")

/-- The dependency array given to `useEffect` (Modal.jsx:27): `[]`. -/
def effectDeps : List Nat := []

/-- Whether an effect re-runs on an update: its dependency array differs from
the one of the previous render. -/
def depsChanged (prev next : List Nat) : Bool := prev != next

/-- A mounted instance of the component: the committed tree, the dependency
array remembered by the `useEffect` hook, the elements focused so far by the
effect (oldest first), and the calls made so far to caller functions. -/
structure Instance where
  tree : ReactNode
  deps : List Nat
  focusLog : List (List Nat)
  calls : List Call

/-- First render and commit: the tree is built, then the effect runs. -/
def mount (p : Props) : Except JSError Instance := do
  let tree ← Modal p
  let focused ← focusEffect tree
  pure { tree := tree, deps := effectDeps, focusLog := [focused], calls := [] }

/-- What can happen to a mounted instance. -/
inductive Step where
  | rerender (p : Props)
  | event (target : List Nat) (e : UIEvent)

/-- One step of a mounted instance. A re-render rebuilds the tree and runs the
effect again only when its dependency array changed; an event is delivered to
the committed tree. -/
def step (s : Instance) : Step → Except JSError Instance
  | .rerender p => do
    let tree ← Modal p
    let focusLog ←
      if depsChanged s.deps effectDeps then do
        let focused ← focusEffect tree
        pure (s.focusLog ++ [focused])
      else pure s.focusLog
    pure { tree := tree, deps := effectDeps, focusLog := focusLog, calls := s.calls }
  | .event target e => do
    let made ← dispatch s.tree target e
    pure { tree := s.tree, deps := s.deps, focusLog := s.focusLog, calls := s.calls ++ made }

/-- Run a sequence of steps from a mounted instance. -/
def run : Instance → List Step → Except JSError Instance
  | s, [] => .ok s
  | s, st :: rest => do
    let next ← step s st
    run next rest

/-- Mount with the given props, then run the steps. -/
def lifecycle (p : Props) (steps : List Step) : Except JSError Instance := do
  let s ← mount p
  run s steps

/-! ## Prop types -/

/-- The table `Modal.propTypes` (Modal.jsx:98-108): each prop name with its
`isRequired` flag. The value types it lists (`func`, `string`, `arrayOf(shape)`)
are the field types of `Props`. -/
def Modal.propTypes : List (String × Bool) :=
  [("onClose", true), ("title", false), ("message", false), ("actions", true)]

/-- Whether a prop of the given name was passed. -/
def Props.defined (p : Props) (name : String) : Bool :=
  if name = "onClose" then p.onClose.isSome
  else if name = "title" then p.title.isSome
  else if name = "message" then p.message.isSome
  else if name = "actions" then p.actions.isSome
  else false

/-- The development-time check of props against `Modal.propTypes`: the names
of the required props that are missing, one console warning each. It runs
beside the render and never throws. -/
def checkPropTypes (p : Props) : List String :=
  (Modal.propTypes.filter fun entry => entry.2 && !p.defined entry.1).map Prod.fst

/-- A step that re-renders does so with props of the shape `Modal.propTypes` demands. -/
def Step.WellShaped : Step → Prop
  | .rerender p => ∃ d : Descriptor, p = d.toProps
  | .event _ _ => True

/-! ## Sample inputs -/

/-- The props of the test suite (modal.test.js:7-22). -/
def testDescriptor : Descriptor :=
  { onClose := ⟨0⟩, title := some "Test Modal",
    message := some "This is a test modal message.",
    actions := [{ label := "Confirm", onClick := ⟨1⟩ }, { label := "Cancel", onClick := ⟨2⟩ }] }

/-- A descriptor with neither title nor message and no actions. -/
def bareDescriptor : Descriptor :=
  { onClose := ⟨0⟩, title := none, message := none, actions := [] }

/-- Props passed without `actions`. -/
def missingActions : Props :=
  { onClose := some ⟨0⟩, title := some "Test Modal", message := none, actions := none }

/-- Props passed without `onClose`. -/
def missingOnClose : Props :=
  { onClose := none, title := some "Test Modal", message := none,
    actions := some [{ label := "OK", onClick := ⟨1⟩ }] }

/-! ## Lemmas on trees and event delivery -/

theorem mem_elementsOfList {m : ReactNode} {cs : List ReactNode} :
    m ∈ elementsOfList cs ↔ ∃ c ∈ cs, m ∈ c.elements := by
  induction cs with
  | nil => simp [elementsOfList]
  | cons c cs ih => simp [elementsOfList, ih]

/-- Every element met on a walk down a tree is one of the tree's elements. -/
theorem chain_elements {n : ReactNode} {path : List Nat} {nodes : List ReactNode}
    (h : n.chain path = some nodes) {m : ReactNode} (hm : m ∈ nodes) (ht : m.tag ≠ none) :
    m ∈ n.elements := by
  induction path generalizing n nodes with
  | nil =>
    simp [ReactNode.chain] at h
    subst h
    simp at hm
    subst hm
    cases m <;> simp [ReactNode.tag, ReactNode.elements] at ht ⊢
  | cons i rest ih =>
    cases n with
    | undefined => simp [ReactNode.chain, ReactNode.children] at h
    | text s => simp [ReactNode.chain, ReactNode.children] at h
    | element t props cs =>
      simp only [ReactNode.chain, ReactNode.children] at h
      cases hc : cs[i]? with
      | none => simp [hc] at h
      | some c =>
        simp only [hc, Option.map_eq_some'] at h
        obtain ⟨nodes', hn, rfl⟩ := h
        rcases List.mem_cons.mp hm with rfl | hm'
        · simp [ReactNode.elements]
        · have := ih hn hm'
          simp only [ReactNode.elements, List.mem_cons, mem_elementsOfList]
          exact Or.inr ⟨c, List.getElem?_mem hc, this⟩

/-- A walk starts at the node it is taken from. -/
theorem chain_head {n : ReactNode} {path : List Nat} {nodes : List ReactNode}
    (h : n.chain path = some nodes) : ∃ below, nodes = n :: below ∧
      (path = [] → below = []) ∧
      ∀ i rest, path = i :: rest → ∃ c, n.children[i]? = some c ∧ c.chain rest = some below := by
  cases path with
  | nil =>
    simp [ReactNode.chain] at h
    exact ⟨[], h.symm, fun _ => rfl, by simp⟩
  | cons i rest =>
    simp only [ReactNode.chain] at h
    cases hc : n.children[i]? with
    | none => simp [hc] at h
    | some c =>
      simp only [hc, Option.map_eq_some'] at h
      obtain ⟨nodes', hn, rfl⟩ := h
      refine ⟨nodes', rfl, by simp, ?_⟩
      intro j r hjr
      cases hjr
      exact ⟨c, hc, hn⟩

theorem elementsOfList_mapIdx_actionButton (actions : List Action) (m : ReactNode) :
    m ∈ elementsOfList (actions.mapIdx actionButton) ↔
      ∃ i a, actions[i]? = some a ∧ m = actionButton i a := by
  rw [mem_elementsOfList]
  constructor
  · rintro ⟨c, hc, hm⟩
    obtain ⟨i, hi⟩ := List.getElem?_of_mem hc
    rw [List.getElem?_mapIdx] at hi
    cases ha : actions[i]? with
    | none => simp [ha] at hi
    | some a =>
      simp [ha] at hi
      subst hi
      simp [actionButton, ReactNode.elements, elementsOfList] at hm
      exact ⟨i, a, ha, by simpa [actionButton] using hm⟩
  · rintro ⟨i, a, ha, rfl⟩
    refine ⟨actionButton i a, ?_, by simp [actionButton, ReactNode.elements]⟩
    apply List.getElem?_mem (n := i)
    rw [List.getElem?_mapIdx, ha]
    rfl

theorem jsAnd_elements (x : Option String) (node : ReactNode) :
    (jsAnd x node).elements = if truthy x then node.elements else [] := by
  unfold jsAnd
  split
  · rfl
  · cases x <;> simp [ReactNode.elements]

/-- A render that succeeds had `actions` and returned the dialog tree. -/
theorem Modal_ok_iff {p : Props} {t : ReactNode} :
    Modal p = .ok t ↔
      ∃ actions, p.actions = some actions ∧
        t = dialog p.onClose p.title p.message (actions.mapIdx actionButton) := by
  unfold Modal
  cases p.actions with
  | none => simp
  | some actions =>
    simp only [Except.ok.injEq, Option.some.injEq, exists_eq_left']
    exact eq_comm

/-- The render of a well-shaped descriptor succeeds. -/
theorem Modal_descriptor (d : Descriptor) :
    Modal d.toProps =
      .ok (dialog (some d.onClose) d.title d.message (d.actions.mapIdx actionButton)) := rfl

/-- Elements strictly below the root of a dialog tree. -/
theorem mem_dialog_inner {onClose : Option Callback} {title message : Option String}
    {actions : List Action} {m : ReactNode}
    (hm : m ∈ elementsOfList (dialog onClose title message (actions.mapIdx actionButton)).children) :
    m.listener (.click) = none ∧ (∀ k, m.listener (.keydown k) = none) ∨
    m = closeButton onClose ∨ ∃ i a, actions[i]? = some a ∧ m = actionButton i a := by
  simp only [dialog, ReactNode.children, ReactNode.elements, elementsOfList, titleSlot, messageSlot,
      closeButton, jsAnd_elements, List.mem_cons, List.mem_append, List.append_nil,
      elementsOfList_mapIdx_actionButton, List.not_mem_nil, or_false] at hm
  rcases hm with rfl | (rfl | rfl) | hm | hm | rfl | h
  · left; simp [ReactNode.listener, plain]
  · right; left; rfl
  · left; simp [ReactNode.listener, plain]
  · left
    split at hm
    · simp at hm; subst hm; simp [ReactNode.listener, plain]
    · simp at hm
  · left
    split at hm
    · simp at hm; subst hm; simp [ReactNode.listener, plain]
    · simp at hm
  · left; simp [ReactNode.listener, plain]
  · right; right; exact h

/-- The props the prop-types check accepts are exactly the well-shaped descriptors. -/
theorem checkPropTypes_nil_iff (p : Props) :
    checkPropTypes p = [] ↔ ∃ d : Descriptor, p = d.toProps := by
  obtain ⟨onClose, title, message, actions⟩ := p
  constructor
  · intro h
    cases onClose with
    | none => simp [checkPropTypes, Modal.propTypes, Props.defined] at h
    | some f =>
      cases actions with
      | none => simp [checkPropTypes, Modal.propTypes, Props.defined] at h
      | some actions => exact ⟨⟨f, title, message, actions⟩, rfl⟩
  · rintro ⟨d, hd⟩
    cases hd
    simp [checkPropTypes, Modal.propTypes, Props.defined, Descriptor.toProps]

/-- A walk starts at the node it is taken from, and every element further
down is an element of one of that node's children. -/
theorem chain_below {n : ReactNode} {path : List Nat} {nodes : List ReactNode}
    (h : n.chain path = some nodes) :
    ∃ below, nodes = n :: below ∧
      ∀ m ∈ below, m.tag ≠ none → m ∈ elementsOfList n.children := by
  cases path with
  | nil =>
    simp [ReactNode.chain] at h
    exact ⟨[], h.symm, by simp⟩
  | cons i rest =>
    simp only [ReactNode.chain] at h
    cases hc : n.children[i]? with
    | none => simp [hc] at h
    | some c =>
      simp only [hc, Option.map_eq_some'] at h
      obtain ⟨nodes', hn, rfl⟩ := h
      refine ⟨nodes', rfl, ?_⟩
      intro m hm ht
      exact mem_elementsOfList.mpr ⟨c, List.getElem?_mem hc, chain_elements hn hm ht⟩

theorem listener_of_tag_none {m : ReactNode} (h : m.tag = none) (e : UIEvent) :
    m.listener e = none := by
  cases m <;> simp [ReactNode.tag, ReactNode.listener] at h ⊢

/-- On any walk through a dialog tree the only keydown listener is the root's
`handleKeyDown`. -/
theorem keydown_listeners {onClose : Option Callback} {title message : Option String}
    {actions : List Action} {target : List Nat} {nodes : List ReactNode} (k : String)
    (h : (dialog onClose title message (actions.mapIdx actionButton)).chain target = some nodes) :
    nodes.reverse.filterMap (ReactNode.listener (.keydown k)) = [.keyHandler onClose] := by
  obtain ⟨below, rfl, hb⟩ := chain_below h
  have hnone : below.reverse.filterMap (ReactNode.listener (.keydown k)) = [] := by
    rw [List.filterMap_eq_nil_iff]
    intro m hm
    have hm' : m ∈ below := List.mem_reverse.mp hm
    by_cases ht : m.tag = none
    · exact listener_of_tag_none ht _
    · rcases mem_dialog_inner (hb m hm' ht) with h1 | rfl | ⟨i, a, -, rfl⟩
      · exact h1.2 k
      · simp [closeButton, ReactNode.listener]
      · simp [actionButton, ReactNode.listener]
  rw [List.reverse_cons, List.filterMap_append, hnone]
  simp [dialog, ReactNode.listener]

/-- Every click listener on a walk through a dialog tree is a caller function
installed directly. -/
theorem click_listeners {onClose : Option Callback} {title message : Option String}
    {actions : List Action} {target : List Nat} {nodes : List ReactNode}
    (h : (dialog onClose title message (actions.mapIdx actionButton)).chain target = some nodes) :
    ∀ l ∈ nodes.reverse.filterMap (ReactNode.listener .click), ∃ f, l = .fn f := by
  obtain ⟨below, rfl, hb⟩ := chain_below h
  intro l hl
  rw [List.mem_filterMap] at hl
  obtain ⟨m, hm, hml⟩ := hl
  rw [List.mem_reverse, List.mem_cons] at hm
  rcases hm with rfl | hm
  · simp [dialog, ReactNode.listener] at hml
  · by_cases ht : m.tag = none
    · rw [listener_of_tag_none ht] at hml
      cases hml
    · rcases mem_dialog_inner (hb m hm ht) with h1 | rfl | ⟨i, a, -, rfl⟩
      · rw [h1.1] at hml
        cases hml
      · cases onClose with
        | none => simp [closeButton, ReactNode.listener] at hml
        | some f =>
          simp [closeButton, ReactNode.listener] at hml
          exact ⟨f, hml.symm⟩
      · simp [actionButton, ReactNode.listener] at hml
        exact ⟨_, hml.symm⟩

/-- Listeners that are caller functions never throw, and each call they make
passes the event as the only argument. -/
theorem runListeners_fn (ls : List Listener) (e : UIEvent) (h : ∀ l ∈ ls, ∃ f, l = .fn f) :
    ∃ calls, runListeners ls e = .ok calls ∧ ∀ c ∈ calls, c.args = [e] := by
  induction ls with
  | nil => exact ⟨[], rfl, by simp⟩
  | cons l ls ih =>
    obtain ⟨f, rfl⟩ := h l (List.mem_cons_self _ _)
    obtain ⟨calls, hc, ha⟩ := ih (fun l hl => h l (List.mem_cons_of_mem _ hl))
    refine ⟨{ callee := f, args := [e] } :: calls, ?_, ?_⟩
    · simp [runListeners, Listener.invoke, hc]
      rfl
    · intro c hc'
      rcases List.mem_cons.mp hc' with rfl | hc'
      · rfl
      · exact ha c hc'

/-- Delivery of a keydown event anywhere in a dialog tree runs `handleKeyDown`. -/
theorem dispatch_keydown {onClose : Option Callback} {title message : Option String}
    {actions : List Action} {target : List Nat} (k : String)
    (h : ((dialog onClose title message (actions.mapIdx actionButton)).chain target).isSome) :
    dispatch (dialog onClose title message (actions.mapIdx actionButton)) target (.keydown k)
      = handleKeyDown onClose (.keydown k) := by
  obtain ⟨nodes, hn⟩ := Option.isSome_iff_exists.mp h
  unfold dispatch
  rw [hn]
  simp only [keydown_listeners k hn, runListeners, Listener.invoke]
  cases handleKeyDown onClose (.keydown k) <;> simp [bind, Except.bind, pure, Except.pure]

/-! ## Keyboard and click behaviour -/

/-- C1. For every well-shaped descriptor the render succeeds, and a keydown
event delivered to any node of the rendered tree makes exactly one call,
`onClose()`, when its key is "Escape", and no call at all for any other key. -/
theorem keydown_escape_only (d : Descriptor) (target : List Nat) (key : String) :
    ∃ t, Modal d.toProps = .ok t ∧
      ((t.chain target).isSome →
        dispatch t target (.keydown key) =
          .ok (if key = "Escape" then [{ callee := d.onClose, args := [] }] else [])) := by
  refine ⟨_, Modal_descriptor d, fun h => ?_⟩
  rw [dispatch_keydown key h]
  by_cases hk : key = "Escape" <;> simp [handleKeyDown, UIEvent.key, hk]

/-- C1, at the props of the test suite: Escape pressed on the second action
button calls `onClose` once with no arguments; Enter there calls nothing. -/
theorem keydown_escape_only_witness :
    ∃ t, Modal testDescriptor.toProps = .ok t ∧
      dispatch t [0, 3, 1] (.keydown "Escape") = .ok [{ callee := ⟨0⟩, args := [] }] ∧
      dispatch t [0, 3, 1] (.keydown "Enter") = .ok [] := by
  obtain ⟨t, ht, h⟩ := keydown_escape_only testDescriptor [0, 3, 1] "Escape"
  obtain ⟨t', ht', h'⟩ := keydown_escape_only testDescriptor [0, 3, 1] "Enter"
  cases ht
  cases ht'
  exact ⟨_, rfl, h rfl, h' rfl⟩

theorem chain_close (onClose : Option Callback) (title message : Option String)
    (buttons : List ReactNode) :
    (dialog onClose title message buttons).chain [0, 0] =
      some [dialog onClose title message buttons,
            (dialog onClose title message buttons).children.headD .undefined,
            closeButton onClose] := by
  simp [dialog, ReactNode.chain, ReactNode.children]

theorem chain_icon (onClose : Option Callback) (title message : Option String)
    (buttons : List ReactNode) :
    (dialog onClose title message buttons).chain [0, 0, 0] =
      some [dialog onClose title message buttons,
            (dialog onClose title message buttons).children.headD .undefined,
            closeButton onClose,
            (closeButton onClose).children.headD .undefined] := by
  simp [dialog, ReactNode.chain, ReactNode.children, closeButton]

theorem chain_action (onClose : Option Callback) (title message : Option String)
    (actions : List Action) {i : Nat} {a : Action} (ha : actions[i]? = some a) :
    (dialog onClose title message (actions.mapIdx actionButton)).chain [0, 3, i] =
      some [dialog onClose title message (actions.mapIdx actionButton),
            (dialog onClose title message (actions.mapIdx actionButton)).children.headD .undefined,
            .element "div" (plain [("className", "modal__popup--buttons")])
              (actions.mapIdx actionButton),
            actionButton i a] := by
  simp [dialog, ReactNode.chain, ReactNode.children, List.getElem?_mapIdx, ha]

/-- C2. For every well-shaped descriptor the render succeeds and each click on
a control calls exactly one caller function, that of the clicked control: a
click on the close control (or on the icon inside it) calls `onClose` and
nothing else, and a click on the action button at index `i` calls
`actions[i].onClick` and nothing else. -/
theorem click_calls_own_callback (d : Descriptor) :
    ∃ t, Modal d.toProps = .ok t ∧
      t.nodeAt [0, 0] = some (closeButton (some d.onClose)) ∧
      (dispatch t [0, 0] .click).map (List.map Call.callee) = .ok [d.onClose] ∧
      (dispatch t [0, 0, 0] .click).map (List.map Call.callee) = .ok [d.onClose] ∧
      ∀ i a, d.actions[i]? = some a →
        t.nodeAt [0, 3, i] = some (actionButton i a) ∧
        (dispatch t [0, 3, i] .click).map (List.map Call.callee) = .ok [a.onClick] := by
  refine ⟨_, Modal_descriptor d, ?_, ?_, ?_, ?_⟩
  · simp [ReactNode.nodeAt, chain_close]
  · simp [dispatch, chain_close]
    simp [dialog, ReactNode.children, ReactNode.listener, closeButton, plain, runListeners,
      Listener.invoke]
    rfl
  · simp [dispatch, chain_icon]
    simp [dialog, ReactNode.children, ReactNode.listener, closeButton, plain, runListeners,
      Listener.invoke]
    rfl
  · intro i a ha
    constructor
    · simp [ReactNode.nodeAt, chain_action _ _ _ _ ha]
    · simp [dispatch, chain_action _ _ _ _ ha]
      simp [dialog, ReactNode.children, ReactNode.listener, actionButton, plain, runListeners,
        Listener.invoke]
      rfl

/-- In the tree of a well-shaped descriptor no delivery throws; the calls a
keydown makes pass no argument and the calls a click makes pass the click event. -/
theorem dispatch_descriptor (f : Callback) (title message : Option String)
    (actions : List Action) (target : List Nat) (e : UIEvent) :
    ∃ calls, dispatch (dialog (some f) title message (actions.mapIdx actionButton)) target e
        = .ok calls ∧
      ∀ c ∈ calls, c.args = match e with
        | .keydown _ => []
        | .click => [.click] := by
  cases hn : (dialog (some f) title message (actions.mapIdx actionButton)).chain target with
  | none => exact ⟨[], by simp [dispatch, hn], by simp⟩
  | some nodes =>
    cases e with
    | keydown k =>
      rw [dispatch_keydown k (by simp [hn])]
      by_cases hk : k = "Escape"
      · exact ⟨[{ callee := f, args := [] }], by simp [handleKeyDown, UIEvent.key, hk], by simp⟩
      · exact ⟨[], by simp [handleKeyDown, UIEvent.key, hk], by simp⟩
    | click =>
      obtain ⟨calls, hc, ha⟩ := runListeners_fn _ .click (click_listeners hn)
      refine ⟨calls, ?_, ha⟩
      unfold dispatch
      rw [hn]
      exact hc

/-- C3, as the code has it. For every well-shaped descriptor the render
succeeds and no delivery throws; every call made for a keydown event (the
Escape path, `onClose()`) passes an empty argument list, and every call made
for a click passes the click event as its single argument: the close control
calls `onClose(event)` and action button `i` calls `actions[i].onClick(event)`. -/
theorem callback_arguments (d : Descriptor) (target : List Nat) (e : UIEvent) :
    ∃ t calls, Modal d.toProps = .ok t ∧
      dispatch t [] (.keydown "Escape") = .ok [{ callee := d.onClose, args := [] }] ∧
      dispatch t [0, 0] .click = .ok [{ callee := d.onClose, args := [.click] }] ∧
      (∀ i a, d.actions[i]? = some a →
        dispatch t [0, 3, i] .click = .ok [{ callee := a.onClick, args := [.click] }]) ∧
      dispatch t target e = .ok calls ∧
      ∀ c ∈ calls, c.args = match e with
        | .keydown _ => []
        | .click => [.click] := by
  obtain ⟨calls, hc, ha⟩ := dispatch_descriptor d.onClose d.title d.message d.actions target e
  refine ⟨_, calls, Modal_descriptor d, ?_, ?_, ?_, hc, ha⟩
  · rw [dispatch_keydown "Escape" (by simp [ReactNode.chain])]
    simp [handleKeyDown, UIEvent.key]
  · simp [dispatch, chain_close]
    simp [dialog, ReactNode.children, ReactNode.listener, closeButton, plain, runListeners,
      Listener.invoke]
    rfl
  · intro i a hia
    simp [dispatch, chain_action _ _ _ _ hia]
    simp [dialog, ReactNode.children, ReactNode.listener, actionButton, plain, runListeners,
      Listener.invoke]
    rfl

/-- C3 fails as stated: with the props of the test suite, a click on the close
control calls `onClose` with the click event as argument, not with an empty
argument list. -/
theorem close_click_passes_event :
    ∃ t, Modal testDescriptor.toProps = .ok t ∧
      dispatch t [0, 0] .click = .ok [{ callee := testDescriptor.onClose, args := [.click] }] ∧
      ¬ ∀ calls, dispatch t [0, 0] .click = .ok calls → ∀ c ∈ calls, c.args = [] := by
  refine ⟨_, rfl, rfl, ?_⟩
  intro h
  have := h [{ callee := testDescriptor.onClose, args := [.click] }] rfl _ (List.mem_singleton.mpr rfl)
  simp at this

/-- C3 as amended, at the props of the test suite: a click on the second action
button passes the click event, Escape passes nothing. -/
theorem callback_arguments_witness :
    ∃ t, Modal testDescriptor.toProps = .ok t ∧
      dispatch t [] (.keydown "Escape") = .ok [{ callee := ⟨0⟩, args := [] }] ∧
      dispatch t [0, 3, 1] .click = .ok [{ callee := ⟨2⟩, args := [.click] }] := by
  obtain ⟨t, _, ht, hesc, _, hact, _, _⟩ := callback_arguments testDescriptor [] .click
  exact ⟨t, ht, hesc, hact 1 { label := "Cancel", onClick := ⟨2⟩ } rfl⟩

/-- C2, at the props of the test suite: a click on "Cancel" calls the second
action's function once and nothing else; a click on the close control calls
`onClose` once and nothing else. -/
theorem click_calls_own_callback_witness :
    ∃ t, Modal testDescriptor.toProps = .ok t ∧
      (dispatch t [0, 0] .click).map (List.map Call.callee) = .ok [⟨0⟩] ∧
      (dispatch t [0, 3, 1] .click).map (List.map Call.callee) = .ok [⟨2⟩] := by
  obtain ⟨t, ht, _, hclose, _, hact⟩ := click_calls_own_callback testDescriptor
  exact ⟨t, ht, hclose, (hact 1 { label := "Cancel", onClick := ⟨2⟩ } rfl).2⟩

/-! ## Rendered content -/

theorem elementsOfList_leaves (l : List ReactNode) (h : ∀ c ∈ l, c.elements = [c]) :
    elementsOfList l = l := by
  induction l with
  | nil => rfl
  | cons c cs ih =>
    simp only [elementsOfList, h c (List.mem_cons_self _ _)]
    rw [ih (fun c hc => h c (List.mem_cons_of_mem _ hc))]
    rfl

theorem mem_mapIdx_actionButton {actions : List Action} {c : ReactNode}
    (hc : c ∈ actions.mapIdx actionButton) : ∃ i a, actions[i]? = some a ∧ c = actionButton i a := by
  obtain ⟨i, hi⟩ := List.getElem?_of_mem hc
  rw [List.getElem?_mapIdx] at hi
  cases ha : actions[i]? with
  | none => simp [ha] at hi
  | some a =>
    simp [ha] at hi
    exact ⟨i, a, ha, hi.symm⟩

theorem elementsOfList_actionButtons (actions : List Action) :
    elementsOfList (actions.mapIdx actionButton) = actions.mapIdx actionButton := by
  apply elementsOfList_leaves
  intro c hc
  obtain ⟨i, a, -, rfl⟩ := mem_mapIdx_actionButton hc
  simp [actionButton, ReactNode.elements, elementsOfList]

theorem titleSlot_elements (title : Option String) :
    (titleSlot title).elements =
      if truthy title then
        [.element "h3" (plain [("id", "modal-title"), ("className", "modal__popup--title")])
          [.text (title.getD "")]]
      else [] := by
  simp [titleSlot, jsAnd_elements, ReactNode.elements, elementsOfList]

theorem messageSlot_elements (message : Option String) :
    (messageSlot message).elements =
      if truthy message then
        [.element "p" (plain [("id", "modal-message"), ("className", "modal__popup--message")])
          [.text (message.getD "")]]
      else [] := by
  simp [messageSlot, jsAnd_elements, ReactNode.elements, elementsOfList]

/-- The elements of a dialog tree in document order. -/
theorem dialog_elements (onClose : Option Callback) (title message : Option String)
    (actions : List Action) :
    (dialog onClose title message (actions.mapIdx actionButton)).elements =
      dialog onClose title message (actions.mapIdx actionButton) ::
      (dialog onClose title message (actions.mapIdx actionButton)).children.headD .undefined ::
      closeButton onClose ::
      (closeButton onClose).children.headD .undefined ::
      ((titleSlot title).elements ++ ((messageSlot message).elements ++
        (.element "div" (plain [("className", "modal__popup--buttons")])
            (actions.mapIdx actionButton) ::
          actions.mapIdx actionButton))) := by
  simp [dialog, ReactNode.elements, elementsOfList, closeButton, ReactNode.children,
    elementsOfList_actionButtons]

theorem actionButton_text (actions : List Action) :
    (actions.mapIdx actionButton).map ReactNode.textContent = actions.map Action.label := by
  apply List.ext_getElem?
  intro i
  simp only [List.getElem?_map, List.getElem?_mapIdx]
  cases actions[i]? with
  | none => rfl
  | some a => simp [actionButton, ReactNode.textContent, textOfList]

theorem actionButton_tag {actions : List Action} {c : ReactNode}
    (hc : c ∈ actions.mapIdx actionButton) : c.tag = some "button" := by
  obtain ⟨i, a, -, rfl⟩ := mem_mapIdx_actionButton hc
  rfl

theorem chain_region (onClose : Option Callback) (title message : Option String)
    (buttons : List ReactNode) :
    (dialog onClose title message buttons).nodeAt [0, 3] =
      some (.element "div" (plain [("className", "modal__popup--buttons")]) buttons) := by
  simp [ReactNode.nodeAt, dialog, ReactNode.chain, ReactNode.children]

theorem tag_dialog (onClose : Option Callback) (title message : Option String)
    (buttons : List ReactNode) : (dialog onClose title message buttons).tag = some "div" := rfl

theorem tag_popup (onClose : Option Callback) (title message : Option String)
    (buttons : List ReactNode) :
    ((dialog onClose title message buttons).children.headD .undefined).tag = some "div" := rfl

theorem tag_closeButton (onClose : Option Callback) :
    (closeButton onClose).tag = some "button" := rfl

theorem tag_icon (onClose : Option Callback) :
    ((closeButton onClose).children.headD .undefined).tag = some "FontAwesomeIcon" := rfl

theorem filter_actionButtons (actions : List Action) (g : String) :
    (actions.mapIdx actionButton).filter (fun e => decide (e.tag = some g))
      = if g = "button" then actions.mapIdx actionButton else [] := by
  split
  · next h => exact List.filter_eq_self.mpr (fun c hc => by simp [actionButton_tag hc, h])
  · next h =>
    refine List.filter_eq_nil_iff.mpr (fun c hc => ?_)
    simp only [actionButton_tag hc, Option.some.injEq, decide_eq_true_eq]
    exact fun h' => h h'.symm

theorem tag_region (buttons : List ReactNode) :
    (ReactNode.element "div" (plain [("className", "modal__popup--buttons")]) buttons).tag
      = some "div" := rfl

theorem byTag_button (onClose : Option Callback) (title message : Option String)
    (actions : List Action) :
    (dialog onClose title message (actions.mapIdx actionButton)).byTag "button" =
      closeButton onClose :: actions.mapIdx actionButton := by
  simp only [ReactNode.byTag, dialog_elements, titleSlot_elements, messageSlot_elements,
    List.filter_cons, List.filter_append, filter_actionButtons, tag_dialog, tag_popup,
    tag_closeButton, tag_icon, tag_region]
  by_cases h1 : truthy title <;> by_cases h2 : truthy message <;>
    simp [h1, h2, ReactNode.tag]

theorem byTag_h3 (onClose : Option Callback) (title message : Option String)
    (actions : List Action) :
    (dialog onClose title message (actions.mapIdx actionButton)).byTag "h3" =
      if truthy title then
        [.element "h3" (plain [("id", "modal-title"), ("className", "modal__popup--title")])
          [.text (title.getD "")]]
      else [] := by
  simp only [ReactNode.byTag, dialog_elements, titleSlot_elements, messageSlot_elements,
    List.filter_cons, List.filter_append, filter_actionButtons, tag_dialog, tag_popup,
    tag_closeButton, tag_icon, tag_region]
  by_cases h1 : truthy title <;> by_cases h2 : truthy message <;>
    simp [h1, h2, ReactNode.tag]

theorem byTag_p (onClose : Option Callback) (title message : Option String)
    (actions : List Action) :
    (dialog onClose title message (actions.mapIdx actionButton)).byTag "p" =
      if truthy message then
        [.element "p" (plain [("id", "modal-message"), ("className", "modal__popup--message")])
          [.text (message.getD "")]]
      else [] := by
  simp only [ReactNode.byTag, dialog_elements, titleSlot_elements, messageSlot_elements,
    List.filter_cons, List.filter_append, filter_actionButtons, tag_dialog, tag_popup,
    tag_closeButton, tag_icon, tag_region]
  by_cases h1 : truthy title <;> by_cases h2 : truthy message <;>
    simp [h1, h2, ReactNode.tag]

/-- C4. For every well-shaped descriptor the render succeeds and the actions
region (the `div` with class `modal__popup--buttons`) has as children exactly
one button per entry of `actions`, in input order, the `i`-th with text
`actions[i].label`; these and the close control are the only buttons rendered. -/
theorem action_buttons_match (d : Descriptor) :
    ∃ t region, Modal d.toProps = .ok t ∧
      t.nodeAt [0, 3] = some region ∧
      region.tag = some "div" ∧
      region.attr "className" = some "modal__popup--buttons" ∧
      region.children.length = d.actions.length ∧
      (∀ c ∈ region.children, c.tag = some "button") ∧
      region.children.map ReactNode.textContent = d.actions.map Action.label ∧
      t.byTag "button" = closeButton (some d.onClose) :: region.children := by
  refine ⟨_, _, Modal_descriptor d, chain_region _ _ _ _, rfl, ?_, ?_, ?_, ?_, ?_⟩
  · simp [ReactNode.attr, plain]
  · simp [ReactNode.children]
  · intro c hc
    exact actionButton_tag hc
  · exact actionButton_text d.actions
  · exact byTag_button _ _ _ _

/-- C8. For every well-shaped descriptor the render succeeds and its root
element carries `role="dialog"` and `aria-modal="true"`. -/
theorem root_is_modal_dialog (d : Descriptor) :
    ∃ t, Modal d.toProps = .ok t ∧
      t.nodeAt [] = some t ∧
      t.attr "role" = some "dialog" ∧
      t.attr "aria-modal" = some "true" := by
  refine ⟨_, Modal_descriptor d, ?_, ?_, ?_⟩
  · simp [ReactNode.nodeAt, ReactNode.chain]
  · rfl
  · rfl

theorem actionButtons_no_attr (actions : List Action) (name : String)
    (h : name ≠ "className") :
    (actions.mapIdx actionButton).filterMap (ReactNode.attr name) = [] := by
  rw [List.filterMap_eq_nil_iff]
  intro c hc
  obtain ⟨i, a, -, rfl⟩ := mem_mapIdx_actionButton hc
  have h' : ("className" == name) = false := by
    simpa using fun h' => h h'.symm
  simp [actionButton, ReactNode.attr, List.lookup, h']
  cases hn : name == "className" with
  | false => rfl
  | true => exact absurd (by simpa using hn) h

/-- The ids present in a dialog tree: that of the heading when there is a
title, that of the paragraph when there is a message. -/
theorem dialog_ids (onClose : Option Callback) (title message : Option String)
    (actions : List Action) :
    (dialog onClose title message (actions.mapIdx actionButton)).ids =
      (if truthy title then ["modal-title"] else []) ++
        (if truthy message then ["modal-message"] else []) := by
  simp only [ReactNode.ids, dialog_elements, titleSlot_elements, messageSlot_elements,
    List.filterMap_cons, List.filterMap_append,
    actionButtons_no_attr actions "id" (by decide)]
  by_cases h1 : truthy title <;> by_cases h2 : truthy message <;>
    simp [h1, h2] <;> rfl

/-- The ids a dialog tree refers to are the same two whatever the props. -/
theorem dialog_ariaRefs (onClose : Option Callback) (title message : Option String)
    (actions : List Action) :
    (dialog onClose title message (actions.mapIdx actionButton)).ariaRefs =
      ["modal-title", "modal-message"] := by
  simp only [ReactNode.ariaRefs, dialog_elements, titleSlot_elements, messageSlot_elements,
    List.filterMap_cons, List.filterMap_append,
    actionButtons_no_attr actions "aria-labelledby" (by decide),
    actionButtons_no_attr actions "aria-describedby" (by decide)]
  by_cases h1 : truthy title <;> by_cases h2 : truthy message <;>
    simp [h1, h2] <;> rfl

/-- Every id the render refers to is present exactly when both `title` and
`message` are non-empty. -/
theorem aria_references_resolve_iff (d : Descriptor) :
    ∃ t, Modal d.toProps = .ok t ∧
      ((∀ r ∈ t.ariaRefs, r ∈ t.ids) ↔ truthy d.title = true ∧ truthy d.message = true) := by
  refine ⟨_, Modal_descriptor d, ?_⟩
  rw [dialog_ariaRefs, dialog_ids]
  by_cases h1 : truthy d.title <;> by_cases h2 : truthy d.message <;>
    simp [h1, h2]
  exact ⟨"modal-message", fun _ => rfl⟩

theorem nodeAt_titleSlot (onClose : Option Callback) (title message : Option String)
    (buttons : List ReactNode) :
    (dialog onClose title message buttons).nodeAt [0, 1] = some (titleSlot title) := by
  simp [ReactNode.nodeAt, dialog, ReactNode.chain, ReactNode.children]

theorem nodeAt_messageSlot (onClose : Option Callback) (title message : Option String)
    (buttons : List ReactNode) :
    (dialog onClose title message buttons).nodeAt [0, 2] = some (messageSlot message) := by
  simp [ReactNode.nodeAt, dialog, ReactNode.chain, ReactNode.children]

theorem jsAnd_falsy {x : Option String} (h : truthy x = false) (node : ReactNode) :
    (jsAnd x node).tag = none ∧ (jsAnd x node).textContent = "" := by
  cases x with
  | none => simp [jsAnd, truthy, ReactNode.tag, ReactNode.textContent]
  | some s =>
    have hs : s = "" := by simpa [truthy] using h
    subst hs
    simp [jsAnd, truthy, ReactNode.tag, ReactNode.textContent]

theorem texts_of_slot (x : Option String) (tag : String) (props : ElemProps) :
    (if truthy x then [ReactNode.element tag props [.text (x.getD "")]] else []).map
        ReactNode.textContent =
      match x with
      | some s => if s = "" then [] else [s]
      | none => [] := by
  cases x with
  | none => simp [truthy]
  | some s =>
    by_cases hs : s = ""
    · simp [truthy, hs]
    · simp [truthy, hs, ReactNode.textContent, textOfList]

/-- C5. For every well-shaped descriptor the render succeeds; it contains a
heading (`h3`) exactly when `title` is a non-empty string, and the heading's
text is then `title`; it contains a message paragraph (`p`) exactly when
`message` is a non-empty string, with text `message`. When `title` (resp.
`message`) is empty or absent, what stands in its place is no element and has
no text. -/
theorem title_and_message_regions (d : Descriptor) :
    ∃ t, Modal d.toProps = .ok t ∧
      ((t.byTag "h3").map ReactNode.textContent =
        match d.title with
        | some s => if s = "" then [] else [s]
        | none => []) ∧
      ((t.byTag "p").map ReactNode.textContent =
        match d.message with
        | some s => if s = "" then [] else [s]
        | none => []) ∧
      (truthy d.title = false →
        ∃ slot, t.nodeAt [0, 1] = some slot ∧ slot.tag = none ∧ slot.textContent = "") ∧
      (truthy d.message = false →
        ∃ slot, t.nodeAt [0, 2] = some slot ∧ slot.tag = none ∧ slot.textContent = "") := by
  refine ⟨_, Modal_descriptor d, ?_, ?_, ?_, ?_⟩
  · rw [byTag_h3]
    exact texts_of_slot _ _ _
  · rw [byTag_p]
    exact texts_of_slot _ _ _
  · intro h
    exact ⟨_, nodeAt_titleSlot _ _ _ _, jsAnd_falsy h _⟩
  · intro h
    exact ⟨_, nodeAt_messageSlot _ _ _ _, jsAnd_falsy h _⟩

/-- C5, at concrete props: with the props of the test suite there is one
heading, "Test Modal", and one paragraph with the message; with an empty title
and no message there is neither, and the title's place holds no text. -/
theorem title_and_message_regions_witness :
    (∃ t, Modal testDescriptor.toProps = .ok t ∧
      (t.byTag "h3").map ReactNode.textContent = ["Test Modal"] ∧
      (t.byTag "p").map ReactNode.textContent = ["This is a test modal message."]) ∧
    (∃ t slot, Modal { bareDescriptor with title := some "" }.toProps = .ok t ∧
      (t.byTag "h3").map ReactNode.textContent = [] ∧
      t.nodeAt [0, 1] = some slot ∧ slot.tag = none ∧ slot.textContent = "") := by
  constructor
  · obtain ⟨t, ht, h3, hp, _, _⟩ := title_and_message_regions testDescriptor
    exact ⟨t, ht, h3, hp⟩
  · obtain ⟨t, ht, h3, _, hslot, _⟩ :=
      title_and_message_regions { bareDescriptor with title := some "" }
    obtain ⟨slot, hs⟩ := hslot rfl
    exact ⟨t, slot, ht, h3, hs⟩

/-- C9. For every well-shaped descriptor the render succeeds and the dialog
surface (the `modal__popup` element) carries `aria-labelledby` and
`aria-describedby`; when `title` is non-empty the former equals the id of the
one rendered heading, and when `message` is non-empty the latter equals the id
of the one rendered message paragraph. -/
theorem surface_labelled_by_regions (d : Descriptor) :
    ∃ t surface, Modal d.toProps = .ok t ∧
      t.nodeAt [0] = some surface ∧
      surface.attr "className" = some "modal__popup" ∧
      (truthy d.title = true →
        ∃ heading, t.byTag "h3" = [heading] ∧ heading.attr "id" = some "modal-title" ∧
          surface.attr "aria-labelledby" = heading.attr "id") ∧
      (truthy d.message = true →
        ∃ para, t.byTag "p" = [para] ∧ para.attr "id" = some "modal-message" ∧
          surface.attr "aria-describedby" = para.attr "id") := by
  refine ⟨_, (dialog (some d.onClose) d.title d.message
    (d.actions.mapIdx actionButton)).children.headD .undefined, Modal_descriptor d, ?_, ?_, ?_, ?_⟩
  · rfl
  · rfl
  · intro h
    rw [byTag_h3, if_pos h]
    exact ⟨_, rfl, rfl, rfl⟩
  · intro h
    rw [byTag_p, if_pos h]
    exact ⟨_, rfl, rfl, rfl⟩

/-- C9, at the props of the test suite: the surface's `aria-labelledby` is the
heading's id and its `aria-describedby` is the paragraph's id. -/
theorem surface_labelled_by_regions_witness :
    ∃ t surface heading para, Modal testDescriptor.toProps = .ok t ∧
      t.nodeAt [0] = some surface ∧ t.byTag "h3" = [heading] ∧ t.byTag "p" = [para] ∧
      surface.attr "aria-labelledby" = heading.attr "id" ∧
      surface.attr "aria-describedby" = para.attr "id" ∧
      heading.attr "id" = some "modal-title" ∧ para.attr "id" = some "modal-message" := by
  obtain ⟨t, surface, ht, hs, _, htitle, hmessage⟩ := surface_labelled_by_regions testDescriptor
  obtain ⟨heading, h1, h2, h3⟩ := htitle rfl
  obtain ⟨para, p1, p2, p3⟩ := hmessage rfl
  exact ⟨t, surface, heading, para, ht, hs, h1, p1, h3, p3, h2, p2⟩

/-- C10 fails on the code: rendered without title and message, the surface
still refers to the ids `modal-title` and `modal-message`, and no element of
that render has either id. -/
theorem dangling_aria_references :
    ∃ t, Modal bareDescriptor.toProps = .ok t ∧
      t.ariaRefs = ["modal-title", "modal-message"] ∧
      t.ids = [] ∧
      ¬ ∀ r ∈ t.ariaRefs, r ∈ t.ids := by
  refine ⟨_, rfl, rfl, rfl, ?_⟩
  intro h
  have := h "modal-title" (by decide)
  revert this
  decide

/-! ## Missing props -/

/-- C6 fails as stated: rendered without `actions`, the component throws a
TypeError at `actions.map` and yields no tree. -/
theorem render_without_actions_throws :
    Modal missingActions =
        .error (.typeError "Cannot read properties of undefined (reading 'map')") ∧
      ¬ ∃ t, Modal missingActions = .ok t := by
  refine ⟨rfl, ?_⟩
  rintro ⟨t, ht⟩
  cases ht

/-- C6, as the code has it. The prop-types check reports exactly the missing
required props and never throws. With `actions` supplied the render completes,
also when `onClose` is undefined, and yields the dialog with its close control
and its actions region holding one child per action; with `actions` undefined
the render throws a TypeError. With `onClose` undefined a click on the close
control calls nothing and an Escape key press throws a TypeError. -/
theorem render_needs_actions (p : Props) :
    (checkPropTypes p = [] ↔ p.onClose ≠ none ∧ p.actions ≠ none) ∧
    (p.onClose = none → "onClose" ∈ checkPropTypes p) ∧
    (p.actions = none → "actions" ∈ checkPropTypes p ∧
      Modal p = .error (.typeError "Cannot read properties of undefined (reading 'map')")) ∧
    (∀ actions, p.actions = some actions →
      ∃ t region, Modal p = .ok t ∧
        t.attr "role" = some "dialog" ∧
        t.nodeAt [0, 0] = some (closeButton p.onClose) ∧
        (closeButton p.onClose).attr "aria-label" = some "Close modal" ∧
        t.nodeAt [0, 3] = some region ∧
        region.attr "className" = some "modal__popup--buttons" ∧
        region.children.length = actions.length ∧
        (p.onClose = none →
          dispatch t [0, 0] .click = .ok [] ∧
          dispatch t [] (.keydown "Escape") =
            .error (.typeError "onClose is not a function"))) := by
  obtain ⟨onClose, title, message, actions⟩ := p
  refine ⟨?_, ?_, ?_, ?_⟩
  · cases onClose <;> cases actions <;>
      simp [checkPropTypes, Modal.propTypes, Props.defined]
  · rintro rfl
    cases actions <;> simp [checkPropTypes, Modal.propTypes, Props.defined]
  · rintro rfl
    refine ⟨?_, rfl⟩
    cases onClose <;> simp [checkPropTypes, Modal.propTypes, Props.defined]
  · rintro as rfl
    refine ⟨_, _, rfl, rfl, ?_, rfl, chain_region _ _ _ _, rfl, ?_, ?_⟩
    · simp [ReactNode.nodeAt, chain_close]
    · simp [ReactNode.children]
    · rintro rfl
      constructor
      · simp [dispatch, chain_close]
        simp [dialog, ReactNode.children, ReactNode.listener, closeButton, plain, runListeners]
      · rw [dispatch_keydown "Escape" (by simp [ReactNode.chain])]
        simp [handleKeyDown, UIEvent.key]

/-- C6 as amended, at props passed without `onClose`: the check reports
`onClose`, and the render completes with the close control and one action button. -/
theorem render_needs_actions_witness :
    checkPropTypes missingOnClose = ["onClose"] ∧
    ∃ t region, Modal missingOnClose = .ok t ∧
      t.nodeAt [0, 0] = some (closeButton none) ∧
      t.nodeAt [0, 3] = some region ∧ region.children.length = 1 ∧
      dispatch t [] (.keydown "Escape") = .error (.typeError "onClose is not a function") := by
  refine ⟨by decide, ?_⟩
  obtain ⟨t, region, ht, _, hclose, _, hregion, _, hlen, hkeys⟩ :=
    (render_needs_actions missingOnClose).2.2.2 [{ label := "OK", onClick := ⟨1⟩ }] rfl
  exact ⟨t, region, ht, hclose, hregion, hlen, (hkeys rfl).2⟩

/-! ## Focus on mount -/

/-- What every step keeps true once a well-shaped descriptor is mounted. -/
theorem step_keeps_focus {s : Instance} {st : Step}
    (htree : ∃ f title message actions,
      s.tree = dialog (some f) title message (List.mapIdx actionButton actions))
    (hdeps : s.deps = effectDeps) (hst : st.WellShaped) :
    ∃ s', step s st = .ok s' ∧ s'.focusLog = s.focusLog ∧ s'.deps = effectDeps ∧
      ∃ f title message actions,
        s'.tree = dialog (some f) title message (List.mapIdx actionButton actions) := by
  cases st with
  | rerender p =>
    obtain ⟨d, rfl⟩ := hst
    refine ⟨{ tree := dialog (some d.onClose) d.title d.message (d.actions.mapIdx actionButton),
              deps := effectDeps, focusLog := s.focusLog, calls := s.calls }, ?_, rfl, rfl,
            ⟨_, _, _, _, rfl⟩⟩
    simp [step, Modal_descriptor, hdeps, depsChanged, bind, Except.bind, pure, Except.pure]
  | event target e =>
    obtain ⟨f, title, message, actions, ht⟩ := htree
    obtain ⟨calls, hc, -⟩ := dispatch_descriptor f title message actions target e
    refine ⟨{ tree := s.tree, deps := s.deps, focusLog := s.focusLog, calls := s.calls ++ calls },
            ?_, rfl, hdeps, ⟨_, _, _, _, ht⟩⟩
    simp [step, ht, hc, bind, Except.bind, pure, Except.pure]

theorem run_keeps_focus (steps : List Step) (h : ∀ st ∈ steps, st.WellShaped) (s : Instance)
    (htree : ∃ f title message actions,
      s.tree = dialog (some f) title message (List.mapIdx actionButton actions))
    (hdeps : s.deps = effectDeps) :
    ∃ s', run s steps = .ok s' ∧ s'.focusLog = s.focusLog := by
  induction steps generalizing s with
  | nil => exact ⟨s, rfl, rfl⟩
  | cons st rest ih =>
    obtain ⟨s1, h1, hlog, hdeps1, htree1⟩ :=
      step_keeps_focus htree hdeps (h st (List.mem_cons_self _ _))
    obtain ⟨s2, h2, hlog2⟩ := ih (fun x hx => h x (List.mem_cons_of_mem _ hx)) s1 htree1 hdeps1
    refine ⟨s2, ?_, hlog2.trans hlog⟩
    simp [run, h1, h2, bind, Except.bind]

/-- C7. Mounting a well-shaped descriptor succeeds and focuses the root
element (path `[]`) once; after any finite sequence of re-renders with
well-shaped props and of key and click events on any node, the run has not
thrown and the focus log still holds that single entry. -/
theorem focus_once_at_mount (d : Descriptor) (steps : List Step)
    (h : ∀ st ∈ steps, st.WellShaped) :
    ∃ s0 s, mount d.toProps = .ok s0 ∧ s0.focusLog = [[]] ∧
      lifecycle d.toProps steps = .ok s ∧ s.focusLog = [[]] := by
  have hm : mount d.toProps = .ok
      { tree := dialog (some d.onClose) d.title d.message (d.actions.mapIdx actionButton),
        deps := effectDeps, focusLog := [[]], calls := [] } := rfl
  obtain ⟨s, hs, hlog⟩ := run_keeps_focus steps h
    { tree := dialog (some d.onClose) d.title d.message (d.actions.mapIdx actionButton),
      deps := effectDeps, focusLog := [[]], calls := [] } ⟨_, _, _, _, rfl⟩ rfl
  refine ⟨_, s, hm, rfl, ?_, hlog⟩
  simp [lifecycle, hm, hs, bind, Except.bind]

/-- C7, on a concrete run: mount with the props of the test suite, re-render
without title and message, click the close control, press Escape, re-render
with the first props again; focus was taken once, on the root. -/
theorem focus_once_at_mount_witness :
    ∃ s, lifecycle testDescriptor.toProps
        [.rerender bareDescriptor.toProps, .event [0, 0] .click,
         .event [] (.keydown "Escape"), .rerender testDescriptor.toProps] = .ok s ∧
      s.focusLog = [[]] := by
  obtain ⟨_, s, _, _, hs, hlog⟩ := focus_once_at_mount testDescriptor
    [.rerender bareDescriptor.toProps, .event [0, 0] .click,
     .event [] (.keydown "Escape"), .rerender testDescriptor.toProps]
    (by
      intro st hst
      simp only [List.mem_cons, List.mem_singleton, List.not_mem_nil, or_false] at hst
      rcases hst with rfl | rfl | rfl | rfl
      · exact ⟨bareDescriptor, rfl⟩
      · trivial
      · trivial
      · exact ⟨testDescriptor, rfl⟩)
  exact ⟨s, hs, hlog⟩

end ModalPlugin
